import Mathlib

/-!
Verification of the VerifAI source-ingestion and claim-verification pipeline
(`panel.js`) against its specification.

The JavaScript core is shallowly embedded: JS strings are Lean `String`
(a list of characters), browser/library effects (FileReader, pdf.js,
mammoth.js, Tesseract.js, `fetch`, the `URL` parser, `DOMParser`,
Readability) are passed in as explicit environments, and thrown JS
exceptions are `Except` errors.
-/

namespace VerifAI

/-! ## JavaScript string primitives

JS string operations used by `panel.js`, modelled character-by-character
on `String.data`. -/

/-- `charsStarts p s`: the character list `p` is an initial segment of `s`
(JS `String.startsWith` on the underlying characters). -/
def charsStarts : List Char → List Char → Bool
  | [], _ => true
  | _ :: _, [] => false
  | p :: ps, c :: cs => p == c && charsStarts ps cs

/-- `charsIncl p s`: `p` occurs contiguously inside `s`
(JS `String.includes` on the underlying characters). -/
def charsIncl : List Char → List Char → Bool
  | p, [] => charsStarts p []
  | p, c :: cs => charsStarts p (c :: cs) || charsIncl p cs

/-- JS `s.startsWith(pat)`. -/
def jsStartsWith (s pat : String) : Bool := charsStarts pat.data s.data

/-- JS `s.endsWith(pat)`. -/
def jsEndsWith (s pat : String) : Bool := charsStarts pat.data.reverse s.data.reverse

/-- JS `s.includes(pat)`. -/
def jsIncludes (s pat : String) : Bool := charsIncl pat.data s.data

/-- JS `s.trim()`: strip leading and trailing whitespace. -/
def jsTrim (s : String) : String :=
  ⟨((s.data.dropWhile Char.isWhitespace).reverse.dropWhile Char.isWhitespace).reverse⟩

/-- JS `s.toLowerCase()` (ASCII case folding, which covers the MIME types
and file extensions the code compares against). -/
def jsToLower (s : String) : String := ⟨s.data.map Char.toLower⟩

/-- JS `s.substring(0, n)`: the first `n` characters of `s`. -/
def jsSubstring (s : String) (n : Nat) : String := ⟨s.data.take n⟩

/-- JS `array.join(sep)` for an array of strings. -/
def jsJoin (sep : String) : List String → String
  | [] => ""
  | [x] => x
  | x :: y :: rest => x ++ sep ++ jsJoin sep (y :: rest)

/-! ## Data model

`panel.js` keeps one mutable `appState` with three collections:
`uploadedFiles` (processed file sources), `urlSources` (fetched pages) and
`sourceContents` (the cached combined view handed to verification). -/

/-- A file handle as delivered by the browser file input: declared name,
declared MIME type and declared size in bytes.  Validation reads only this
metadata, never the content. -/
structure JSFile where
  name : String
  type : String
  size : Nat
deriving Repr, DecidableEq

/-- A processed file source, as pushed onto `appState.uploadedFiles` by
`processFile` (the `timestamp` field of the JS object carries no logic and
is omitted). -/
structure FileSource where
  name : String
  type : String
  size : Nat
  content : String
deriving Repr, DecidableEq

/-- A fetched web source, as pushed onto `appState.urlSources` by the
`fetchUrlBtn` handler (again minus the timestamp). -/
structure UrlSource where
  url : String
  content : String
  title : String
deriving Repr, DecidableEq

/-- One element of the combined source view (`appState.sourceContents`
holds the file objects followed by the url objects). -/
inductive SourceItem where
  | file (f : FileSource)
  | url (u : UrlSource)
deriving Repr, DecidableEq

/-- `source.content`, the only field verification reads. -/
def SourceItem.content : SourceItem → String
  | .file f => f.content
  | .url u => u.content

/-- The session state `appState` of `panel.js`. -/
structure AppState where
  uploadedFiles : List FileSource
  urlSources : List UrlSource
  pendingClaim : Option String
  sourceContents : List SourceItem
deriving Repr, DecidableEq

/-- The initial `appState`: all collections empty. -/
def initialState : AppState :=
  { uploadedFiles := [], urlSources := [], pendingClaim := none, sourceContents := [] }

/-- `updateSourceContents()`: recompute the cached combined view as the
file sources followed by the url sources. -/
def updateSourceContents (st : AppState) : AppState :=
  { st with sourceContents :=
      st.uploadedFiles.map SourceItem.file ++ st.urlSources.map SourceItem.url }

/-! ## SourceValidator (`validateFile`, `validateUrl`) -/

/-- The validation errors `validateFile` throws; in JS these are `Error`
messages embedding the file name (and, for the size check, the literal
10MB limit). -/
inductive ValidationError where
  | fileTooLarge (name : String) (limitBytes : Nat)
  | unsupportedType (name : String)
deriving Repr, DecidableEq

/-- `MAX_FILE_SIZE = 10 * 1024 * 1024` from `validateFile`. -/
def MAX_FILE_SIZE : Nat := 10 * 1024 * 1024

/-- `ALLOWED_TYPES` from `validateFile`: MIME type keys with their
filename-extension fallbacks. -/
def ALLOWED_TYPES : List (String × List String) :=
  [ ("application/pdf", [".pdf"]),
    ("application/msword", [".doc"]),
    ("application/vnd.openxmlformats-officedocument.wordprocessingml.document", [".docx"]),
    ("text/plain", [".txt"]),
    ("image/jpeg", [".jpg", ".jpeg"]),
    ("image/png", [".png"]),
    ("image/gif", [".gif"]) ]

/-- `validateFile(file)`: reject files over `MAX_FILE_SIZE`, then accept
when either the declared MIME type is an `ALLOWED_TYPES` key or the
lower-cased name ends in one of the listed extensions. -/
def validateFile (file : JSFile) : Except ValidationError Unit :=
  if file.size > MAX_FILE_SIZE then
    .error (.fileTooLarge file.name MAX_FILE_SIZE)
  else if (ALLOWED_TYPES.map Prod.fst).contains file.type
      || (ALLOWED_TYPES.map Prod.snd).flatten.any (fun ext => jsEndsWith (jsToLower file.name) ext) then
    .ok ()
  else
    .error (.unsupportedType file.name)

/-- The record the platform `URL` constructor yields; only the `protocol`
field is inspected by the code. -/
structure URLParts where
  protocol : String
deriving Repr, DecidableEq

/-- `validateUrl(urlString)`: parse with the platform `URL` constructor
(passed in as `parse`; `none` models the constructor throwing) and accept
exactly the protocols `http:` and `https:`.  The JS `catch` that maps a
parse failure to `false` is the `none` branch, so the function is total:
it never raises. -/
def validateUrl (parse : String → Option URLParts) (urlString : String) : Bool :=
  match parse urlString with
  | some url => url.protocol == "http:" || url.protocol == "https:"
  | none => false

/-! ## ContentExtractor (`extractTextFromPDF`, `extractTextFromWord`,
`extractTextFromImage`, `readFileAsText`, `processFile`)

The browser and the optional extraction libraries are an explicit
environment.  A library being "available" models the corresponding global
(`window['pdfjs-dist/build/pdf']`, `mammoth`, `Tesseract`) being defined;
each backend's behaviour on a given file is a function into `Except Unit
String`, where `.error ()` models the library throwing.  `read` models
`FileReader.readAsText`: `none` is the `onerror` path. -/

structure ExtractionEnv where
  pdfAvailable : Bool
  pdf : JSFile → Except Unit String
  mammothAvailable : Bool
  word : JSFile → Except Unit String
  tesseractAvailable : Bool
  ocr : JSFile → Except Unit String
  read : JSFile → Option String

/-- Errors that escape file processing to `handleFiles`; `readFailed`
carries the message of `readFileAsText`'s rejection. -/
inductive ProcessError where
  | validation (e : ValidationError)
  | readFailed (name : String)
deriving Repr, DecidableEq

/-- `readFileAsText(file)`: resolve with the file's text, or reject with
`Failed to read file: <name>` when the `FileReader` errors. -/
def readFileAsText (env : ExtractionEnv) (file : JSFile) : Except ProcessError String :=
  match env.read file with
  | some text => .ok text
  | none => .error (.readFailed file.name)

/-- `extractTextFromPDF(file)`: with no pdf.js global, read the raw bytes
as text; otherwise run the pdf.js pipeline; any exception from the `try`
body (including a rejection of the fallback read itself) lands in the
`catch`, which retries the raw read once more. -/
def extractTextFromPDF (env : ExtractionEnv) (file : JSFile) : Except ProcessError String :=
  let tryBody : Except ProcessError String :=
    if !env.pdfAvailable then
      readFileAsText env file
    else
      match env.pdf file with
      | .ok text => .ok text
      | .error () => .error (.readFailed file.name)
  match tryBody with
  | .ok text => .ok text
  | .error _ => readFileAsText env file

/-- `extractTextFromWord(file)`: same shape as the PDF extractor, gated on
the `mammoth` global. -/
def extractTextFromWord (env : ExtractionEnv) (file : JSFile) : Except ProcessError String :=
  let tryBody : Except ProcessError String :=
    if !env.mammothAvailable then
      readFileAsText env file
    else
      match env.word file with
      | .ok text => .ok text
      | .error () => .error (.readFailed file.name)
  match tryBody with
  | .ok text => .ok text
  | .error _ => readFileAsText env file

/-- `extractTextFromImage(file)`: without the `Tesseract` global return the
"OCR library not loaded" sentinel; with it, OCR the image and replace an
empty trimmed result by the "No text detected" sentinel (JS `||` on the
falsy empty string); an OCR exception is caught and becomes the "Failed to
extract" sentinel.  Every branch resolves. -/
def extractTextFromImage (env : ExtractionEnv) (file : JSFile) : Except ProcessError String :=
  if !env.tesseractAvailable then
    .ok ("[Image: " ++ file.name ++ "]\nOCR library not loaded. Please install Tesseract.js to extract text from images.")
  else
    match env.ocr file with
    | .ok text =>
        .ok (if jsTrim text = "" then
              "[Image: " ++ file.name ++ "]\nNo text detected in image."
            else jsTrim text)
    | .error () =>
        .ok ("[Image: " ++ file.name ++ "]\nFailed to extract text from image.")

/-- The extraction dispatch inside `processFile`: declared type first,
filename extension as fallback, raw read as the default. -/
def extractDispatch (env : ExtractionEnv) (file : JSFile) : Except ProcessError String :=
  if file.type == "application/pdf" || jsEndsWith (jsToLower file.name) ".pdf" then
    extractTextFromPDF env file
  else if file.type == "application/msword"
      || file.type == "application/vnd.openxmlformats-officedocument.wordprocessingml.document"
      || jsEndsWith (jsToLower file.name) ".doc"
      || jsEndsWith (jsToLower file.name) ".docx" then
    extractTextFromWord env file
  else if jsStartsWith file.type "image/" then
    extractTextFromImage env file
  else if file.type == "text/plain" || jsEndsWith (jsToLower file.name) ".txt" then
    readFileAsText env file
  else
    readFileAsText env file

/-- `processFile(file)`: validate, extract via the dispatch, and package
the extracted text as a source record; validation and read errors are
re-thrown to the caller. -/
def processFile (env : ExtractionEnv) (file : JSFile) : Except ProcessError FileSource :=
  match validateFile file with
  | .error e => .error (.validation e)
  | .ok () =>
    match extractDispatch env file with
    | .error e => .error e
    | .ok extractedText =>
        .ok { name := file.name, type := file.type, size := file.size, content := extractedText }

/-! ## SourceStore lifecycle (`handleFiles`, `removeSource`) -/

/-- The sequential loop of `handleFiles`: process the files one at a time,
appending each processed source to `appState.uploadedFiles`; the first
exception aborts the loop and is reported (the pushes made so far
persist). -/
def handleFilesGo (env : ExtractionEnv) : List JSFile → AppState → AppState × Option ProcessError
  | [], st => (st, none)
  | f :: fs, st =>
    match processFile env f with
    | .error e => (st, some e)
    | .ok src => handleFilesGo env fs { st with uploadedFiles := st.uploadedFiles ++ [src] }

/-- `handleFiles(files)`: nothing to do on an empty batch; otherwise run
the loop.  `updateSourceContents()` sits after the loop inside the `try`,
so it runs only when every file in the batch succeeded — on the error
path only the status message is shown and the cached combined view is
left as it was. -/
def handleFiles (env : ExtractionEnv) (files : List JSFile) (st : AppState) : AppState :=
  if files.isEmpty then st
  else
    match handleFilesGo env files st with
    | (st', none) => updateSourceContents st'
    | (st', some _) => st'

/-- Which sub-collection a removal addresses: the `type` argument of
`removeSource` (`'file'` or anything else, which the code treats as a url
removal). -/
inductive SrcType where
  | file
  | url
deriving Repr, DecidableEq

/-- JS `array.splice(start, 1)` restricted to its effect on the array:
a negative `start` counts from the end (clamped at 0), a `start` past the
end removes nothing. -/
def spliceRemoveOne (l : List α) (start : Int) : List α :=
  if start < 0 then l.eraseIdx (l.length - (-start).toNat)
  else l.eraseIdx (min start.toNat l.length)

/-- `removeSource(index, type)`: a `'file'` removal splices
`uploadedFiles` at the combined index directly; any other type splices
`urlSources` at `index - uploadedFiles.length`; then the combined view is
recomputed.  (The `findIndex` computed in the file branch is dead code:
its result is never used.) -/
def removeSource (index : Int) (type : SrcType) (st : AppState) : AppState :=
  updateSourceContents <|
    match type with
    | .file => { st with uploadedFiles := spliceRemoveOne st.uploadedFiles index }
    | .url =>
        { st with urlSources := spliceRemoveOne st.urlSources (index - st.uploadedFiles.length) }

/-- Removal as driven from the combined list rendered by
`updateFileList`: entry `i` of `[files..., urls...]` carries
`sourceType = 'file'` exactly when `i` falls in the file prefix, and its
remove button calls `removeSource(i, sourceType)`. -/
def removeCombined (i : Nat) (st : AppState) : AppState :=
  removeSource i (if i < st.uploadedFiles.length then .file else .url) st

/-! ## WebContentExtractor (`fetchUrlContent` and the `fetchUrlBtn`
handler) -/

/-- The slice of a `fetch` `Response` the code inspects.  The platform
defines `response.ok` as `200 ≤ status ≤ 299`. -/
structure HttpResponse where
  status : Nat
  statusText : String
  body : String
deriving Repr, DecidableEq

/-- The platform's `Response.ok`. -/
def HttpResponse.ok (r : HttpResponse) : Bool := 200 ≤ r.status && r.status ≤ 299

/-- What `DOMParser.parseFromString` yields, restricted to the fields the
code reads: the body's visible text and the document title. -/
structure PageDoc where
  bodyText : String
  title : String
deriving Repr, DecidableEq

/-- The browser collaborators of `fetchUrlContent`: the network, the HTML
parser, and Readability.  `readability doc = .error ()` models the
`Readability` constructor or `parse()` throwing; `.ok none` models
`parse()` returning `null`. -/
structure WebEnv where
  net : String → HttpResponse
  parseHTML : String → PageDoc
  readability : PageDoc → Except Unit (Option String)

/-- The exceptions `fetchUrlContent` throws. -/
inductive FetchError where
  | invalidUrl
  | fetchFailed (status : Nat) (statusText : String)
deriving Repr, DecidableEq

/-- `fetchUrlContent(url)`: reject invalid URLs before touching the
network; then GET, reject non-2xx responses with status and status text,
parse the body, try Readability and fall back to the body text when it
throws or yields nothing, and default the title to `"Untitled"` when the
page declares none (JS `doc.title || 'Untitled'`).  The second component
records whether a network request was issued. -/
def fetchUrlContent (env : WebEnv) (parse : String → Option URLParts) (url : String) :
    Except FetchError UrlSource × Bool :=
  if !validateUrl parse url then
    (.error .invalidUrl, false)
  else
    let response := env.net url
    if !response.ok then
      (.error (.fetchFailed response.status response.statusText), true)
    else
      let doc := env.parseHTML response.body
      let extractedContent :=
        match env.readability doc with
        | .ok (some article) => article
        | .ok none => doc.bodyText
        | .error () => doc.bodyText
      ( .ok { url := url,
              content := extractedContent,
              title := if doc.title = "" then "Untitled" else doc.title },
        true )

/-- The `fetchUrlBtn` click handler: trim the input, bail out on an empty
string, and on a successful fetch push the page onto `urlSources` and
recompute the combined view; on any thrown error only a status message is
shown and the state is untouched. -/
def fetchUrlBtnHandler (env : WebEnv) (parse : String → Option URLParts)
    (input : String) (st : AppState) : AppState :=
  let url := jsTrim input
  if url = "" then st
  else
    match (fetchUrlContent env parse url).1 with
    | .error _ => st
    | .ok page => updateSourceContents { st with urlSources := st.urlSources ++ [page] }

/-! ## VerificationOrchestrator (`verifyClaimWithAI`) -/

/-- The separator the sources are joined with. -/
def SOURCE_SEPARATOR : String := "\n\n=== NEXT SOURCE ===\n\n"

/-- The flattened evidence string: every source's `content`, joined in
collection order with the separator, truncated to the first 100,000
characters (`substring(0, 100000)`). -/
def combinedSourceText (sources : List SourceItem) : String :=
  jsSubstring (jsJoin SOURCE_SEPARATOR (sources.map SourceItem.content)) 100000

/-- The errors `verifyClaimWithAI` throws. -/
inductive VerifyError where
  | emptyClaim
  | noSources
  | judgeRequestFailed (message : String)
deriving Repr, DecidableEq

/-- The system instruction sent to the judge (the four-way taxonomy). -/
def JUDGE_SYSTEM_CONTENT : String :=
  "You are a professional fact-checker. You will be given a CLAIM and SOURCE TEXTS from various documents and websites.\n\nYour job is to:\n1. Carefully analyze whether the SOURCE TEXTS support, contradict, or are insufficient to verify the CLAIM\n2. Provide a clear verdict: \"Supported\", \"Contradicted\", \"Partially Supported\", or \"Insufficient Evidence\"\n3. Explain your reasoning in 1-2 sentence, citing specific information from the sources\n4. Be precise - the claim must be accurately reflected in the sources, not just topically related\n\nFormat your response as:\n[Your verdict]\nExplanation: [Your detailed explanation]"

/-- The judge request body (the fields with logical content: the numeric
sampling parameters carry none). -/
structure JudgeRequest where
  model : String
  systemContent : String
  userContent : String
deriving Repr, DecidableEq

/-- The judge's HTTP reply, restricted to what the code reads: the status,
the optional `error.message` of the error body, and
`choices[0].message.content`. -/
structure JudgeHttpResponse where
  status : Nat
  errorMessage : Option String
  content : String
deriving Repr, DecidableEq

/-- The precondition checks and request construction of
`verifyClaimWithAI`, everything that happens before the network call:
an empty (or all-whitespace) claim and an empty source list are rejected
in that order; otherwise the request is built around the flattened
evidence string. -/
def buildJudgeRequest (claim : String) (sources : List SourceItem) :
    Except VerifyError JudgeRequest :=
  if claim == "" || (jsTrim claim).length == 0 then
    .error .emptyClaim
  else if sources.length == 0 then
    .error .noSources
  else
    .ok { model := "gpt-4",
          systemContent := JUDGE_SYSTEM_CONTENT,
          userContent := "CLAIM: " ++ claim ++ "\n\nSOURCE TEXTS:\n" ++ combinedSourceText sources }

/-- `verifyClaimWithAI(claim, sources)`: run the precondition checks, and
only when they pass send the single judge request (`net`); a non-2xx
judge reply throws with the provider's `error.message` when present, else
`API request failed: <status>`.  The boolean records whether the judge
was called. -/
def verifyClaimWithAI (net : JudgeRequest → JudgeHttpResponse)
    (claim : String) (sources : List SourceItem) : Except VerifyError String × Bool :=
  match buildJudgeRequest claim sources with
  | .error e => (.error e, false)
  | .ok request =>
    let response := net request
    if !(200 ≤ response.status && response.status ≤ 299) then
      ( .error (.judgeRequestFailed
          (match response.errorMessage with
           | some message => message
           | none => "API request failed: " ++ toString response.status)),
        true )
    else
      (.ok response.content, true)

/-! ## ResultPresenter (`displayResult`) -/

/-- The CSS result classes `displayResult` chooses between; they are the
three display categories (`valid` = Supported, `invalid` = Contradicted,
`error` = Insufficient/Partially). -/
inductive ResultType where
  | valid
  | invalid
  | error
deriving Repr, DecidableEq

/-- The fixed markup around the verdict text in `displayResult`. -/
def RESULT_HTML_BEFORE : String :=
  "\n    <div class=\"result-header\">\n      <svg xmlns=\"http://www.w3.org/2000/svg\" fill=\"none\" viewBox=\"0 0 24 24\" stroke=\"currentColor\">\n        <path stroke-linecap=\"round\" stroke-linejoin=\"round\" stroke-width=\"2\" d=\"M9 12l2 2 4-4m6 2a9 9 0 11-18 0 9 9 0 0118 0z\" />\n      </svg>\n      Verification Result\n    </div>\n    <div style=\"white-space: pre-wrap; line-height: 1.6;\">"

/-- The markup closing the verdict container. -/
def RESULT_HTML_AFTER : String := "</div>\n  "

/-- `displayResult(analysis)`: classify the free-text judge reply by
substring matching — `Contradicted`/`False` first, then
`Insufficient`/`Partially`, everything else `valid` — and interpolate the
raw reply into the rendered markup. -/
def displayResult (analysis : String) : ResultType × String :=
  let resultType :=
    if jsIncludes analysis "Contradicted" || jsIncludes analysis "False" then
      ResultType.invalid
    else if jsIncludes analysis "Insufficient" || jsIncludes analysis "Partially" then
      ResultType.error
    else
      ResultType.valid
  (resultType, RESULT_HTML_BEFORE ++ analysis ++ RESULT_HTML_AFTER)

/-- The `verifyBtn` click handler reads `appState.sourceContents` as the
source list handed to `verifyClaimWithAI`. -/
def verifyBtnSources (st : AppState) : List SourceItem := st.sourceContents

/-! ## Helper lemmas -/

theorem string_length_eq_zero {s : String} : s.length = 0 ↔ s = "" := by
  cases s with
  | mk data =>
    show data.length = 0 ↔ _
    rw [List.length_eq_zero]
    exact ⟨fun h => h ▸ rfl, fun h => congrArg String.data h⟩

theorem jsSubstring_length (s : String) (n : Nat) :
    (jsSubstring s n).length = min n s.length :=
  List.length_take ..

theorem jsSubstring_of_le {s : String} {n : Nat} (h : s.length ≤ n) :
    jsSubstring s n = s := by
  cases s with
  | mk data => exact congrArg String.mk (List.take_of_length_le h)

theorem eraseIdx_min (l : List α) (n : Nat) :
    l.eraseIdx (min n l.length) = l.eraseIdx n := by
  rcases le_or_lt n l.length with h | h
  · rw [Nat.min_eq_left h]
  · rw [Nat.min_eq_right h.le, List.eraseIdx_of_length_le (le_refl _),
      List.eraseIdx_of_length_le h.le]

theorem spliceRemoveOne_natCast (l : List α) (n : Nat) :
    spliceRemoveOne l (n : Int) = l.eraseIdx n := by
  rw [spliceRemoveOne, if_neg (by omega)]
  have h : ((n : Int)).toNat = n := by omega
  rw [h, eraseIdx_min]

theorem spliceRemoveOne_sub (l : List α) (n f : Nat) (hf : f ≤ n) :
    spliceRemoveOne l ((n : Int) - (f : Int)) = l.eraseIdx (n - f) := by
  rw [spliceRemoveOne, if_neg (by omega)]
  have h : ((n : Int) - (f : Int)).toNat = n - f := by omega
  rw [h, eraseIdx_min]

/-! ## C1: verification preconditions -/

/-- C1: for every claim that is empty after trimming and every non-empty
source list, `verifyClaimWithAI` fails with the empty-claim error with no
network call issued; for every claim non-empty after trimming and empty
source list it fails with the no-sources error, again with no network
call. -/
theorem verify_precondition_errors (net : JudgeRequest → JudgeHttpResponse)
    (claim : String) (sources : List SourceItem) :
    (jsTrim claim = "" → sources ≠ [] →
      verifyClaimWithAI net claim sources = (.error .emptyClaim, false)) ∧
    (jsTrim claim ≠ "" → sources = [] →
      verifyClaimWithAI net claim sources = (.error .noSources, false)) := by
  constructor
  · intro h _
    have : (jsTrim claim).length = 0 := string_length_eq_zero.mpr h
    simp [verifyClaimWithAI, buildJudgeRequest, this]
  · intro h hs
    subst hs
    have h1 : claim ≠ "" := fun hc => h (by rw [hc]; rfl)
    have h2 : (jsTrim claim).length ≠ 0 := fun hl => h (string_length_eq_zero.mp hl)
    simp [verifyClaimWithAI, buildJudgeRequest, h1, h2]

/-- A stub judge endpoint used to instantiate theorems on concrete
inputs. -/
def netStub : JudgeRequest → JudgeHttpResponse := fun _ => ⟨200, none, "Supported"⟩

/-- A concrete one-element source list. -/
def oneTxtSource : List SourceItem := [.file ⟨"a.txt", "text/plain", 1, "x"⟩]

/-- C1 witness: a whitespace-only claim with one source, and a real claim
with no sources. -/
theorem verify_precondition_errors_witness :
    (verifyClaimWithAI netStub "  " oneTxtSource = (.error .emptyClaim, false)) ∧
    (verifyClaimWithAI netStub "The sky is blue" [] = (.error .noSources, false)) :=
  ⟨(verify_precondition_errors netStub "  " oneTxtSource).1 (by decide) (by decide),
   (verify_precondition_errors netStub "The sky is blue" []).2 (by decide) rfl⟩

/-! ## C2: evidence flattening and truncation -/

/-- C2: when the joined source contents exceed 100,000 characters the
flattened evidence string has length exactly 100,000; otherwise it is the
joined string unmodified; and the truncation is silent — with valid
preconditions the judge request is still built successfully around the
flattened string, never an error. -/
theorem evidence_truncation (sources : List SourceItem) :
    (100000 < (jsJoin SOURCE_SEPARATOR (sources.map SourceItem.content)).length →
      (combinedSourceText sources).length = 100000) ∧
    ((jsJoin SOURCE_SEPARATOR (sources.map SourceItem.content)).length ≤ 100000 →
      combinedSourceText sources = jsJoin SOURCE_SEPARATOR (sources.map SourceItem.content)) ∧
    (∀ claim, jsTrim claim ≠ "" → sources ≠ [] →
      buildJudgeRequest claim sources =
        .ok { model := "gpt-4", systemContent := JUDGE_SYSTEM_CONTENT,
              userContent :=
                "CLAIM: " ++ claim ++ "\n\nSOURCE TEXTS:\n" ++ combinedSourceText sources }) := by
  refine ⟨fun h => ?_, fun h => jsSubstring_of_le h, fun claim hc hs => ?_⟩
  · rw [combinedSourceText, jsSubstring_length]
    omega
  · have h1 : claim ≠ "" := fun h => hc (by rw [h]; rfl)
    have h2 : (jsTrim claim).length ≠ 0 := fun hl => hc (string_length_eq_zero.mp hl)
    have h3 : sources.length ≠ 0 := fun hl => hs (List.length_eq_zero.mp hl)
    simp [buildJudgeRequest, h1, h2, h3]

/-- A concrete source whose content is 100,001 characters long. -/
def longTxtSource : List SourceItem :=
  [.file ⟨"a.txt", "text/plain", 5, ⟨List.replicate 100001 'a'⟩⟩]

/-- A concrete source with a three-character content. -/
def shortTxtSource : List SourceItem := [.file ⟨"b.txt", "text/plain", 3, "abc"⟩]

/-- C2 witness: a single 100,001-character source is truncated to exactly
100,000 characters, and a short source passes through unmodified. -/
theorem evidence_truncation_witness :
    100000 < (jsJoin SOURCE_SEPARATOR (longTxtSource.map SourceItem.content)).length ∧
    (combinedSourceText longTxtSource).length = 100000 ∧
    combinedSourceText shortTxtSource = "abc" := by
  have hlen : (jsJoin SOURCE_SEPARATOR (longTxtSource.map SourceItem.content)).length
      = 100001 := by
    show (List.replicate 100001 'a').length = 100001
    exact List.length_replicate ..
  refine ⟨by rw [hlen]; omega, ?_, ?_⟩
  · exact (evidence_truncation longTxtSource).1 (by rw [hlen]; omega)
  · exact (evidence_truncation shortTxtSource).2.1 (by decide)

/-! ## C3: combined-index removal -/

/-- C3: removing combined index `i` over `f` file sources and `u` url
sources removes exactly the `i`-th file source when `i < f` (urls
untouched), exactly the `(i-f)`-th url source when `f ≤ i < f + u` (files
untouched), and an out-of-range index leaves both sub-collections as they
were. -/
theorem removeCombined_spec (st : AppState) (i : Nat) :
    (i < st.uploadedFiles.length →
      (removeCombined i st).uploadedFiles = st.uploadedFiles.eraseIdx i ∧
      (removeCombined i st).urlSources = st.urlSources) ∧
    (st.uploadedFiles.length ≤ i → i < st.uploadedFiles.length + st.urlSources.length →
      (removeCombined i st).uploadedFiles = st.uploadedFiles ∧
      (removeCombined i st).urlSources = st.urlSources.eraseIdx (i - st.uploadedFiles.length)) ∧
    (st.uploadedFiles.length + st.urlSources.length ≤ i →
      removeCombined i st = updateSourceContents st) := by
  refine ⟨fun h1 => ?_, fun h2 h3 => ?_, fun h4 => ?_⟩
  · simp [removeCombined, removeSource, updateSourceContents, spliceRemoveOne_natCast, h1]
  · have hif : ¬(i < st.uploadedFiles.length) := by omega
    simp [removeCombined, removeSource, updateSourceContents,
      spliceRemoveOne_sub st.urlSources i st.uploadedFiles.length h2, hif]
  · have hif : ¬(i < st.uploadedFiles.length) := by omega
    have herase : st.urlSources.eraseIdx (i - st.uploadedFiles.length) = st.urlSources :=
      List.eraseIdx_of_length_le (by omega)
    simp [removeCombined, removeSource, updateSourceContents,
      spliceRemoveOne_sub st.urlSources i st.uploadedFiles.length (by omega), herase, hif]

/-- A concrete store holding two file sources and two url sources. -/
def twoTwoStore : AppState :=
  ⟨[⟨"a", "text/plain", 1, "A"⟩, ⟨"b", "text/plain", 1, "B"⟩],
   [⟨"http://x", "X", "x"⟩, ⟨"http://y", "Y", "y"⟩], none, []⟩

/-- C3 witness: on a store of two files and two urls, removing combined
index 1 drops the second file, index 3 drops the second url, and index 9
is out of range and leaves the store as recomputed from itself. -/
theorem removeCombined_spec_witness :
    (removeCombined 1 twoTwoStore).uploadedFiles = twoTwoStore.uploadedFiles.eraseIdx 1 ∧
    (removeCombined 1 twoTwoStore).urlSources = twoTwoStore.urlSources ∧
    (removeCombined 3 twoTwoStore).uploadedFiles = twoTwoStore.uploadedFiles ∧
    (removeCombined 3 twoTwoStore).urlSources = twoTwoStore.urlSources.eraseIdx 1 ∧
    removeCombined 9 twoTwoStore = updateSourceContents twoTwoStore :=
  ⟨((removeCombined_spec twoTwoStore 1).1 (by decide)).1,
   ((removeCombined_spec twoTwoStore 1).1 (by decide)).2,
   ((removeCombined_spec twoTwoStore 3).2.1 (by decide) (by decide)).1,
   ((removeCombined_spec twoTwoStore 3).2.1 (by decide) (by decide)).2,
   (removeCombined_spec twoTwoStore 9).2.2 (by decide)⟩

/-! ## Extraction helper lemmas -/

theorem strlen_append (s t : String) : (s ++ t).length = s.length + t.length := by
  cases s
  cases t
  exact List.length_append ..

theorem readFileAsText_ok {env : ExtractionEnv} {file : JSFile} {t : String}
    (hread : env.read file = some t) : readFileAsText env file = .ok t := by
  rw [readFileAsText, hread]

theorem extractTextFromPDF_fallback {env : ExtractionEnv} {file : JSFile} {t : String}
    (hread : env.read file = some t)
    (h : env.pdfAvailable = false ∨ env.pdf file = .error ()) :
    extractTextFromPDF env file = .ok t := by
  rw [extractTextFromPDF]
  rcases h with h | h
  · simp [h, readFileAsText_ok hread]
  · cases hpa : env.pdfAvailable <;> simp [h, readFileAsText_ok hread]

theorem extractTextFromPDF_ok {env : ExtractionEnv} {file : JSFile} {t : String}
    (hread : env.read file = some t) : ∃ r, extractTextFromPDF env file = .ok r := by
  cases hpa : env.pdfAvailable
  · exact ⟨t, extractTextFromPDF_fallback hread (Or.inl hpa)⟩
  · cases hp : env.pdf file with
    | ok r => exact ⟨r, by rw [extractTextFromPDF]; simp [hpa, hp]⟩
    | error e => exact ⟨t, extractTextFromPDF_fallback hread (Or.inr (by cases e; exact hp))⟩

theorem extractTextFromWord_ok {env : ExtractionEnv} {file : JSFile} {t : String}
    (hread : env.read file = some t) : ∃ r, extractTextFromWord env file = .ok r := by
  rw [extractTextFromWord]
  cases hpa : env.mammothAvailable
  · exact ⟨t, by simp [readFileAsText_ok hread]⟩
  · cases hp : env.word file with
    | ok r => exact ⟨r, by simp [hp]⟩
    | error e => exact ⟨t, by simp [hp, readFileAsText_ok hread]⟩

theorem extractTextFromImage_ok (env : ExtractionEnv) (file : JSFile) :
    ∃ r, extractTextFromImage env file = .ok r := by
  cases hpa : env.tesseractAvailable
  · exact ⟨"[Image: " ++ file.name ++ "]\nOCR library not loaded. Please install Tesseract.js to extract text from images.",
      by rw [extractTextFromImage, hpa]; rfl⟩
  · cases hp : env.ocr file with
    | ok text =>
      exact ⟨if jsTrim text = "" then "[Image: " ++ file.name ++ "]\nNo text detected in image." else jsTrim text,
        by rw [extractTextFromImage, hpa, hp]; rfl⟩
    | error e =>
      cases e
      exact ⟨"[Image: " ++ file.name ++ "]\nFailed to extract text from image.",
        by rw [extractTextFromImage, hpa, hp]; rfl⟩

theorem extractDispatch_ok {env : ExtractionEnv} {file : JSFile} {t : String}
    (hread : env.read file = some t) : ∃ r, extractDispatch env file = .ok r := by
  rw [extractDispatch]
  split
  · exact extractTextFromPDF_ok hread
  · split
    · exact extractTextFromWord_ok hread
    · split
      · exact extractTextFromImage_ok env file
      · split
        · exact ⟨t, readFileAsText_ok hread⟩
        · exact ⟨t, readFileAsText_ok hread⟩

theorem processFile_ok {env : ExtractionEnv} {file : JSFile} {t : String}
    (hval : validateFile file = .ok ()) (hread : env.read file = some t) :
    ∃ text, processFile env file = .ok ⟨file.name, file.type, file.size, text⟩ := by
  obtain ⟨r, hr⟩ := @extractDispatch_ok env file t hread
  exact ⟨r, by simp [processFile, hval, hr]⟩

/-! ## C4: extraction fallback behaviour (corrected)

The specified contract says extraction never raises, but the fallback
raw read itself can reject: `readFileAsText` rejects when the
`FileReader` errors, and neither `extractTextFromPDF`'s `catch` nor
`processFile` masks that rejection. -/

/-- An environment with no extraction backends and a failing
`FileReader`. -/
def noBackendEnv : ExtractionEnv :=
  ⟨false, fun _ => .error (), false, fun _ => .error (), false, fun _ => .error (),
   fun _ => none⟩

/-- A small, admissible PDF file. -/
def samplePdf : JSFile := ⟨"report.pdf", "application/pdf", 100⟩

/-- C4 counterexample: an admissible PDF in an environment with no PDF
backend and a failing raw read makes extraction (and file processing)
reject, so extraction can raise to its caller. -/
theorem extraction_raises_on_read_failure :
    validateFile samplePdf = .ok () ∧
    extractTextFromPDF noBackendEnv samplePdf = .error (.readFailed "report.pdf") ∧
    processFile noBackendEnv samplePdf = .error (.readFailed "report.pdf") :=
  ⟨rfl, rfl, rfl⟩

/-- C4 (amended): provided the raw byte-to-text read of the file
succeeds, extraction never raises: every admissible file processes to a
source record; in particular when the PDF backend is absent or throws,
the PDF path falls back to the raw decode; and the processed source is
inserted into the store. -/
theorem extraction_resolves_without_read_failure (env : ExtractionEnv) (file : JSFile)
    (t : String) (hval : validateFile file = .ok ()) (hread : env.read file = some t) :
    (∃ text, processFile env file = .ok ⟨file.name, file.type, file.size, text⟩) ∧
    ((file.type == "application/pdf" || jsEndsWith (jsToLower file.name) ".pdf") = true →
      env.pdfAvailable = false ∨ env.pdf file = .error () →
      processFile env file = .ok ⟨file.name, file.type, file.size, t⟩) ∧
    (∀ st src, processFile env file = .ok src →
      handleFiles env [file] st =
        updateSourceContents { st with uploadedFiles := st.uploadedFiles ++ [src] }) := by
  refine ⟨processFile_ok hval hread, fun hdisp hback => ?_, fun st src hsrc => ?_⟩
  · have hd : extractDispatch env file = .ok t := by
      rw [extractDispatch, if_pos hdisp]
      exact extractTextFromPDF_fallback hread hback
    simp [processFile, hval, hd]
  · simp [handleFiles, handleFilesGo, hsrc]

/-- A PDF-less environment whose raw read succeeds. -/
def rawReadEnv : ExtractionEnv :=
  ⟨false, fun _ => .error (), false, fun _ => .error (), false, fun _ => .error (),
   fun _ => some "%PDF raw bytes"⟩

/-- C4 witness: with no PDF backend but a working raw read, the sample
PDF processes to a source holding the raw decode and is inserted. -/
theorem extraction_resolves_without_read_failure_witness :
    processFile rawReadEnv samplePdf
      = .ok ⟨"report.pdf", "application/pdf", 100, "%PDF raw bytes"⟩ ∧
    handleFiles rawReadEnv [samplePdf] initialState
      = updateSourceContents
          { initialState with uploadedFiles :=
              initialState.uploadedFiles ++ [⟨"report.pdf", "application/pdf", 100, "%PDF raw bytes"⟩] } := by
  have h := extraction_resolves_without_read_failure rawReadEnv samplePdf "%PDF raw bytes"
    rfl rfl
  have h1 := h.2.1 (by decide) (Or.inl rfl)
  exact ⟨h1, h.2.2 initialState _ h1⟩

/-! ## C5: verdict classification -/

theorem charsStarts_self_append (p t : List Char) : charsStarts p (p ++ t) = true := by
  induction p with
  | nil => rfl
  | cons a as ih => simp [charsStarts, ih]

theorem charsIncl_mid (h p f : List Char) : charsIncl p (h ++ p ++ f) = true := by
  induction h with
  | nil =>
    cases p with
    | nil =>
      cases f with
      | nil => rfl
      | cons c cs => simp [charsIncl, charsStarts]
    | cons a as =>
      show charsIncl (a :: as) (a :: (as ++ f)) = true
      simp only [charsIncl]
      have hst : charsStarts (a :: as) (a :: (as ++ f)) = true := by
        simp [charsStarts, charsStarts_self_append]
      rw [hst, Bool.true_or]
  | cons c hs ih =>
    show charsIncl p (c :: (hs ++ p ++ f)) = true
    simp only [charsIncl]
    rw [ih, Bool.or_true]

theorem jsIncludes_mid (a b c : String) : jsIncludes (a ++ b ++ c) b = true := by
  have hdata : (a ++ b ++ c).data = a.data ++ b.data ++ c.data := by
    cases a
    cases b
    cases c
    rfl
  rw [jsIncludes, hdata]
  exact charsIncl_mid ..

/-- C5: the free-text judge reply is classified by substring matching —
`Contradicted`/`False` first (the Contradicted display category), then
`Insufficient`/`Partially`, anything else Supported — and the raw reply
text is interpolated into the rendered markup regardless of category. -/
theorem verdict_classification (analysis : String) :
    ((jsIncludes analysis "Contradicted" || jsIncludes analysis "False") = true →
      (displayResult analysis).1 = .invalid) ∧
    ((jsIncludes analysis "Contradicted" || jsIncludes analysis "False") = false →
      (jsIncludes analysis "Insufficient" || jsIncludes analysis "Partially") = true →
      (displayResult analysis).1 = .error) ∧
    ((jsIncludes analysis "Contradicted" || jsIncludes analysis "False") = false →
      (jsIncludes analysis "Insufficient" || jsIncludes analysis "Partially") = false →
      (displayResult analysis).1 = .valid) ∧
    jsIncludes (displayResult analysis).2 analysis = true := by
  refine ⟨fun h1 => ?_, fun h1 h2 => ?_, fun h1 h2 => ?_, ?_⟩
  · simp [displayResult, h1]
  · simp [displayResult, h1, h2]
  · simp [displayResult, h1, h2]
  · exact jsIncludes_mid RESULT_HTML_BEFORE analysis RESULT_HTML_AFTER

/-- C5 witness: concrete judge replies landing in each category, with the
raw text preserved in the rendered markup. -/
theorem verdict_classification_witness :
    (displayResult "Contradicted\nExplanation: the source says otherwise.").1 = .invalid ∧
    (displayResult "Insufficient Evidence\nExplanation: no source mentions it.").1 = .error ∧
    (displayResult "Supported\nExplanation: stated verbatim.").1 = .valid ∧
    jsIncludes (displayResult "Supported\nExplanation: stated verbatim.").2
      "Supported\nExplanation: stated verbatim." = true :=
  ⟨(verdict_classification "Contradicted\nExplanation: the source says otherwise.").1
      (by decide),
   (verdict_classification "Insufficient Evidence\nExplanation: no source mentions it.").2.1
      (by decide) (by decide),
   (verdict_classification "Supported\nExplanation: stated verbatim.").2.2.1
      (by decide) (by decide),
   (verdict_classification "Supported\nExplanation: stated verbatim.").2.2.2⟩

/-! ## C6: oversized files are rejected and never ingested -/

theorem handleFilesGo_split (env : ExtractionEnv) (pre fs : List JSFile) (st : AppState)
    (hpre : (handleFilesGo env pre st).2 = none) :
    handleFilesGo env (pre ++ fs) st = handleFilesGo env fs (handleFilesGo env pre st).1 := by
  induction pre generalizing st with
  | nil => rfl
  | cons f pre' ih =>
    show handleFilesGo env (f :: (pre' ++ fs)) st = _
    rw [handleFilesGo] at hpre
    conv_lhs => rw [handleFilesGo]
    conv_rhs => rw [handleFilesGo]
    cases hp : processFile env f with
    | error e =>
      rw [hp] at hpre
      exact absurd hpre (by simp)
    | ok src =>
      rw [hp] at hpre
      exact ih _ hpre

theorem handleFilesGo_appends (env : ExtractionEnv) (fs : List JSFile) (st : AppState) :
    (∃ ingested, (handleFilesGo env fs st).1.uploadedFiles = st.uploadedFiles ++ ingested) ∧
    (handleFilesGo env fs st).1.urlSources = st.urlSources ∧
    (handleFilesGo env fs st).1.sourceContents = st.sourceContents := by
  induction fs generalizing st with
  | nil => exact ⟨⟨[], by simp [handleFilesGo]⟩, rfl, rfl⟩
  | cons f fs' ih =>
    rw [handleFilesGo]
    cases hp : processFile env f with
    | error e => exact ⟨⟨[], by simp⟩, rfl, rfl⟩
    | ok src =>
      obtain ⟨⟨ingested, hi⟩, hu, hs⟩ :=
        ih { st with uploadedFiles := st.uploadedFiles ++ [src] }
      exact ⟨⟨[src] ++ ingested, by rw [hi]; simp⟩, hu, hs⟩

/-- C6: a file whose declared size exceeds 10 MiB fails validation with
the too-large error carrying its name and the limit; in any batch it is
reached after a clean prefix, processing stops there — the oversized file
is never appended, the url sources are untouched, and the sources
ingested before it (both pre-existing and from the clean prefix) are
kept. -/
theorem oversized_file_never_ingested (env : ExtractionEnv) (st : AppState)
    (pre rest : List JSFile) (file : JSFile) (h : MAX_FILE_SIZE < file.size)
    (hpre : (handleFilesGo env pre st).2 = none) :
    validateFile file = .error (.fileTooLarge file.name MAX_FILE_SIZE) ∧
    handleFiles env (pre ++ file :: rest) st = (handleFilesGo env pre st).1 ∧
    (handleFilesGo env pre st).1.urlSources = st.urlSources ∧
    ∃ ingested, (handleFilesGo env pre st).1.uploadedFiles = st.uploadedFiles ++ ingested := by
  have hval : validateFile file = .error (.fileTooLarge file.name MAX_FILE_SIZE) := by
    rw [validateFile, if_pos (by exact h)]
  refine ⟨hval, ?_, (handleFilesGo_appends env pre st).2.1,
    (handleFilesGo_appends env pre st).1⟩
  have hproc : processFile env file = .error (.validation (.fileTooLarge file.name MAX_FILE_SIZE)) := by
    rw [processFile, hval]
  have hne : (pre ++ file :: rest).isEmpty = false := by
    cases pre <;> rfl
  rw [handleFiles, hne, if_neg (by simp), handleFilesGo_split env pre (file :: rest) st hpre,
    handleFilesGo, hproc]

/-- A benign environment reading every file as plain text. -/
def plainReadEnv : ExtractionEnv :=
  ⟨false, fun _ => .error (), false, fun _ => .error (), false, fun _ => .error (),
   fun _ => some "The sky is blue."⟩

/-- A file whose declared size is 20,000,000 bytes, above the 10 MiB
limit. -/
def oversizedFile : JSFile := ⟨"big.txt", "text/plain", 20000000⟩

/-- C6 witness: the oversized file alone in a batch fails validation with
the too-large error and leaves the store exactly as it was. -/
theorem oversized_file_never_ingested_witness :
    validateFile oversizedFile = .error (.fileTooLarge "big.txt" MAX_FILE_SIZE) ∧
    handleFiles plainReadEnv [oversizedFile] initialState = initialState := by
  have h := oversized_file_never_ingested plainReadEnv initialState [] [] oversizedFile
    (by decide) rfl
  exact ⟨h.1, h.2.1⟩

/-! ## C7: URL validation gates the fetch -/

/-- C7: `validateUrl` returns `true` exactly when the URL parser succeeds
with scheme `http` or `https`; a parse failure yields `false` (the
function is total, so it never raises); and whenever `validateUrl` is
`false`, `fetchUrlContent` throws the invalid-URL error with no network
request issued. -/
theorem validateUrl_spec (parse : String → Option URLParts) (env : WebEnv) (s : String) :
    (validateUrl parse s = true ↔
      ∃ u, parse s = some u ∧ (u.protocol = "http:" ∨ u.protocol = "https:")) ∧
    (parse s = none → validateUrl parse s = false) ∧
    (validateUrl parse s = false → fetchUrlContent env parse s = (.error .invalidUrl, false)) := by
  refine ⟨?_, fun h => by rw [validateUrl, h], fun h => by rw [fetchUrlContent, h]; rfl⟩
  rw [validateUrl]
  cases hp : parse s with
  | none => simp
  | some u =>
    simp only [Option.some.injEq]
    constructor
    · intro h
      refine ⟨u, rfl, ?_⟩
      rcases Bool.or_eq_true_iff.mp h with h' | h'
      · exact Or.inl (by simpa using h')
      · exact Or.inr (by simpa using h')
    · rintro ⟨v, rfl, h'⟩
      rcases h' with h' | h' <;> simp [h']

/-- A concrete stand-in for the platform URL parser: recognises two fixed
absolute URLs (one `http`, one `ftp`) and fails on everything else. -/
def stubParse : String → Option URLParts := fun s =>
  if s = "http://example.com" then some ⟨"http:"⟩
  else if s = "ftp://example.com" then some ⟨"ftp:"⟩
  else none

/-- A web environment whose server answers every request with 404. -/
def stubWeb : WebEnv :=
  ⟨fun _ => ⟨404, "Not Found", ""⟩, fun body => ⟨body, ""⟩, fun _ => .ok none⟩

/-- C7 witness: an unparseable string validates false, an `ftp` URL fails
validation and makes the fetch throw without a network call, and an
`http` URL validates true. -/
theorem validateUrl_spec_witness :
    validateUrl stubParse "not a url" = false ∧
    fetchUrlContent stubWeb stubParse "ftp://example.com" = (.error .invalidUrl, false) ∧
    validateUrl stubParse "http://example.com" = true :=
  ⟨(validateUrl_spec stubParse stubWeb "not a url").2.1 rfl,
   (validateUrl_spec stubParse stubWeb "ftp://example.com").2.2 (by decide),
   (validateUrl_spec stubParse stubWeb "http://example.com").1.mpr
     ⟨⟨"http:"⟩, rfl, Or.inl rfl⟩⟩

/-! ## C8: non-2xx fetches throw and insert nothing -/

/-- C8: when the GET on a validated URL answers outside 2xx,
`fetchUrlContent` throws the fetch-failed error carrying the status code
and status text (the network was hit, nothing is returned), and the
`fetchUrlBtn` handler leaves the store untouched — no source is
inserted. -/
theorem fetch_failure_inserts_nothing (env : WebEnv) (parse : String → Option URLParts)
    (url : String) (hvalid : validateUrl parse url = true)
    (hstatus : ¬(200 ≤ (env.net url).status ∧ (env.net url).status ≤ 299)) :
    fetchUrlContent env parse url =
      (.error (.fetchFailed (env.net url).status (env.net url).statusText), true) ∧
    (∀ st input, jsTrim input = url → fetchUrlBtnHandler env parse input st = st) := by
  have hok : (env.net url).ok = false := by
    rw [HttpResponse.ok]
    simp only [Bool.and_eq_false_iff, decide_eq_false_iff_not]
    omega
  have hfetch : fetchUrlContent env parse url =
      (.error (.fetchFailed (env.net url).status (env.net url).statusText), true) := by
    rw [fetchUrlContent, hvalid]
    simp [hok]
  refine ⟨hfetch, fun st input hin => ?_⟩
  rw [fetchUrlBtnHandler, hin]
  by_cases hu : url = ""
  · rw [if_pos hu]
  · rw [if_neg hu, hfetch]

/-- C8 witness: fetching a valid URL against the 404 server throws the
fetch-failed error with status 404, and the handler leaves the empty
store empty. -/
theorem fetch_failure_inserts_nothing_witness :
    fetchUrlContent stubWeb stubParse "http://example.com"
      = (.error (.fetchFailed 404 "Not Found"), true) ∧
    fetchUrlBtnHandler stubWeb stubParse "http://example.com" initialState = initialState := by
  have h := fetch_failure_inserts_nothing stubWeb stubParse "http://example.com"
    rfl (by decide)
  exact ⟨h.1, h.2 initialState "http://example.com" (by decide)⟩

/-! ## C9: OCR sentinels, never the empty string -/

/-- C9: image extraction returns the "OCR library not loaded" sentinel
when the OCR backend is absent, the "No text detected" sentinel when OCR
runs but its trimmed output is empty, and in every case resolves to a
non-empty string. -/
theorem ocr_sentinels (env : ExtractionEnv) (file : JSFile) :
    (env.tesseractAvailable = false →
      extractTextFromImage env file =
        .ok ("[Image: " ++ file.name ++ "]\nOCR library not loaded. Please install Tesseract.js to extract text from images.")) ∧
    (∀ text, env.tesseractAvailable = true → env.ocr file = .ok text → jsTrim text = "" →
      extractTextFromImage env file =
        .ok ("[Image: " ++ file.name ++ "]\nNo text detected in image.")) ∧
    (∃ r, extractTextFromImage env file = .ok r ∧ r ≠ "") := by
  have hsent : ∀ (suffix : String), ("[Image: " ++ file.name ++ suffix) ≠ "" := by
    intro suffix h
    have hl := congrArg String.length h
    rw [strlen_append, strlen_append] at hl
    have h8 : ("[Image: " : String).length = 8 := rfl
    have h0 : ("" : String).length = 0 := rfl
    rw [h8, h0] at hl
    omega
  refine ⟨fun h => by simp [extractTextFromImage, h],
    fun text h hp ht => by simp [extractTextFromImage, h, hp, ht], ?_⟩
  cases hpa : env.tesseractAvailable
  · refine ⟨_, ?_,
      hsent "]\nOCR library not loaded. Please install Tesseract.js to extract text from images."⟩
    simp [extractTextFromImage, hpa]
  · cases hp : env.ocr file with
    | ok text =>
      by_cases ht : jsTrim text = ""
      · refine ⟨_, ?_, hsent "]\nNo text detected in image."⟩
        simp [extractTextFromImage, hpa, hp, ht]
      · exact ⟨jsTrim text, by simp [extractTextFromImage, hpa, hp, ht], ht⟩
    | error e =>
      cases e
      refine ⟨_, ?_, hsent "]\nFailed to extract text from image."⟩
      simp [extractTextFromImage, hpa, hp]

/-- An environment whose OCR backend is loaded but reads only
whitespace out of every image. -/
def whitespaceOcrEnv : ExtractionEnv :=
  ⟨false, fun _ => .error (), false, fun _ => .error (), true, fun _ => .ok "  \n ",
   fun _ => none⟩

/-- A sample PNG file. -/
def samplePng : JSFile := ⟨"pic.png", "image/png", 500⟩

/-- C9 witness: without the OCR backend the unavailability sentinel comes
back; with a backend that reads only whitespace, the no-text sentinel
comes back instead of the empty string. -/
theorem ocr_sentinels_witness :
    extractTextFromImage noBackendEnv samplePng =
      .ok ("[Image: " ++ "pic.png" ++ "]\nOCR library not loaded. Please install Tesseract.js to extract text from images.") ∧
    extractTextFromImage whitespaceOcrEnv samplePng =
      .ok ("[Image: " ++ "pic.png" ++ "]\nNo text detected in image.") :=
  ⟨(ocr_sentinels noBackendEnv samplePng).1 rfl,
   (ocr_sentinels whitespaceOcrEnv samplePng).2.1 "  \n " rfl rfl (by decide)⟩

/-! ## C10: the combined view can go stale (code bug)

`handleFiles` only calls `updateSourceContents()` after the whole batch
loop succeeds; when a later file in the batch throws, the files already
pushed onto `uploadedFiles` stay, but the cached `sourceContents` read by
the verify button is not refreshed.  The spec requires the snapshot to
reflect the store at call time. -/

/-- C10: a batch of one good plain-text file followed by an oversized
file pushes the good file but aborts before the combined view is
recomputed: verification would then read a stale empty snapshot that
misses the ingested file. -/
theorem stale_snapshot_after_failed_batch :
    (handleFiles plainReadEnv [⟨"notes.txt", "text/plain", 17⟩, oversizedFile]
        initialState).uploadedFiles
      = [⟨"notes.txt", "text/plain", 17, "The sky is blue."⟩] ∧
    verifyBtnSources
        (handleFiles plainReadEnv [⟨"notes.txt", "text/plain", 17⟩, oversizedFile]
          initialState)
      = [] ∧
    verifyBtnSources
        (handleFiles plainReadEnv [⟨"notes.txt", "text/plain", 17⟩, oversizedFile]
          initialState)
      ≠ (handleFiles plainReadEnv [⟨"notes.txt", "text/plain", 17⟩, oversizedFile]
            initialState).uploadedFiles.map SourceItem.file
        ++ (handleFiles plainReadEnv [⟨"notes.txt", "text/plain", 17⟩, oversizedFile]
            initialState).urlSources.map SourceItem.url := by
  refine ⟨rfl, rfl, ?_⟩
  intro h
  exact absurd (rfl.trans h) (by decide)

end VerifAI
